import Mathlib

/-!
Shallow embedding of the tier-unlock and knowledge-aggregation engine of the
Momos-Guide-to-Monsters module (src/scripts/knowledge-check-dialog.mjs,
src/scripts/main.mjs, and the settings source), together with theorems
settling the specification claims.

Embedding conventions: JavaScript objects with optional fields become Lean
structures with Option fields; JavaScript numeric truthiness (0, undefined
and the empty string are falsy) is embedded explicitly; the host i18n
facility (game.i18n.localize / format) is embedded as the identity on
localization keys; JavaScript insertion-ordered objects that are iterated
with Object.entries become association lists.
-/

namespace Momos

/-- The five knowledge tiers of the module. -/
inductive Tier where
  | tier1 | tier2 | tier3 | tier4 | tier5
deriving DecidableEq, Repr

/-- Iteration order of tiers: the tierOrder array in determineUnlockedTiers. -/
def tierOrder : List Tier := [.tier1, .tier2, .tier3, .tier4, .tier5]

/-- Numeric level of each tier (the level field of tierLabels). -/
def tierLevel : Tier → Nat
  | .tier1 => 1
  | .tier2 => 2
  | .tier3 => 3
  | .tier4 => 4
  | .tier5 => 5

/-- JavaScript comparison rollTotal >= dc where rollTotal may be undefined
(undefined >= dc evaluates to false in JavaScript). -/
def optGe : Option Int → Int → Bool
  | none, _ => false
  | some v, d => decide (v ≥ d)

/-- The body of determineUnlockedTiers, with a possibly-undefined roll total:
for each tier of tierOrder, when dcs[tier] is truthy (defined and non-zero)
the output records rollTotal >= dcs[tier]; otherwise the tier is omitted.
The result is the insertion-ordered entry list of the unlocked object. -/
def determineUnlockedTiersJs (rollTotal : Option Int) (dcs : Tier → Option Int) :
    List (Tier × Bool) :=
  tierOrder.filterMap fun tier =>
    match dcs tier with
    | none => none
    | some dc => if dc = 0 then none else some (tier, optGe rollTotal dc)

/-- determineUnlockedTiers(rollTotal, dcs) for a defined numeric roll total. -/
def determineUnlockedTiers (rollTotal : Int) (dcs : Tier → Option Int) :
    List (Tier × Bool) :=
  determineUnlockedTiersJs (some rollTotal) dcs

/-- Membership characterization of the resolver output: a pair (t, b) occurs
in the output exactly when t has a defined non-zero threshold d and b is the
comparison result against d. -/
theorem mem_determineUnlockedTiersJs (rollTotal : Option Int)
    (dcs : Tier → Option Int) (t : Tier) (b : Bool) :
    (t, b) ∈ determineUnlockedTiersJs rollTotal dcs ↔
      ∃ d, dcs t = some d ∧ d ≠ 0 ∧ b = optGe rollTotal d := by
  rw [determineUnlockedTiersJs, List.mem_filterMap]
  constructor
  · rintro ⟨a, -, ha⟩
    cases hda : dcs a with
    | none => rw [hda] at ha; simp at ha
    | some d =>
      rw [hda] at ha
      dsimp only at ha
      by_cases hd : d = 0
      · subst hd; simp at ha
      · rw [if_neg hd] at ha
        obtain ⟨h1, h2⟩ := Prod.mk.injEq .. ▸ Option.some.inj ha
        subst h1
        exact ⟨d, hda, hd, h2.symm⟩
  · rintro ⟨d, hd, hdz, hb⟩
    refine ⟨t, by cases t <;> simp [tierOrder], ?_⟩
    rw [hd]
    simp only [if_neg hdz, hb]

/-- Every tier occurs in tierOrder. -/
theorem mem_tierOrder (t : Tier) : t ∈ tierOrder := by
  cases t <;> simp [tierOrder]

/-- A threshold mapping that defines a zero threshold for tier 1 only. -/
def dcsZero : Tier → Option Int
  | .tier1 => some 0
  | _ => none

/-- C2 counterexample: with a defined threshold of 0 for tier 1 and effective
total 5 (so 5 >= 0), the claim requires the output to map tier 1 to true, but
the code treats the zero threshold as falsy and omits tier 1 entirely: the
resolver output is empty. -/
theorem c2_zero_threshold_cex :
    dcsZero .tier1 = some 0 ∧ (5 : Int) ≥ 0 ∧
      determineUnlockedTiers 5 dcsZero = [] ∧
      (Tier.tier1, true) ∉ determineUnlockedTiers 5 dcsZero := by
  refine ⟨rfl, by decide, rfl, by decide⟩

/-- C2 (amended): the resolver maps each tier with a defined NON-ZERO
threshold d to the boolean (effective total >= d), and omits (rather than
maps to false) every tier whose threshold is undefined or zero. -/
theorem c2_determineUnlockedTiers_amended (rollTotal : Int)
    (dcs : Tier → Option Int) (t : Tier) (b : Bool) :
    (t, b) ∈ determineUnlockedTiers rollTotal dcs ↔
      ∃ d, dcs t = some d ∧ d ≠ 0 ∧ b = decide (rollTotal ≥ d) := by
  exact mem_determineUnlockedTiersJs (some rollTotal) dcs t b

/-- The default threshold mapping of the module: 12, 15, 18, 22, 25. -/
def dcsDefault : Tier → Option Int
  | .tier1 => some 12
  | .tier2 => some 15
  | .tier3 => some 18
  | .tier4 => some 22
  | .tier5 => some 25

/-- C2 witness: with the default thresholds and effective total 20, tier 1
(threshold 12, non-zero, 20 >= 12) is mapped to true. -/
theorem c2_determineUnlockedTiers_amended_witness :
    (Tier.tier1, true) ∈ determineUnlockedTiers 20 dcsDefault :=
  (c2_determineUnlockedTiers_amended 20 dcsDefault .tier1 true).mpr
    ⟨12, rfl, by decide, by decide⟩

/-- A strictly increasing threshold set over all five tiers whose first
threshold is zero: 0 < 3 < 6 < 10 < 13. -/
def dcsIncZero : Tier → Option Int
  | .tier1 => some 0
  | .tier2 => some 3
  | .tier3 => some 6
  | .tier4 => some 10
  | .tier5 => some 13

/-- C3 counterexample: the thresholds 0, 3, 6, 10, 13 are defined for all
five tiers and strictly increasing, and with effective total 6 the resolver
unlocks tier 3; yet tier 1 (a lower tier) is not unlocked, because its zero
threshold is treated as falsy and the tier is omitted from the output. -/
theorem c3_monotonicity_cex :
    dcsIncZero .tier1 = some 0 ∧ dcsIncZero .tier2 = some 3 ∧
      dcsIncZero .tier3 = some 6 ∧ dcsIncZero .tier4 = some 10 ∧
      dcsIncZero .tier5 = some 13 ∧
      (0 : Int) < 3 ∧ (3 : Int) < 6 ∧ (6 : Int) < 10 ∧ (10 : Int) < 13 ∧
      (Tier.tier3, true) ∈ determineUnlockedTiers 6 dcsIncZero ∧
      (Tier.tier1, true) ∉ determineUnlockedTiers 6 dcsIncZero ∧
      (Tier.tier1, false) ∉ determineUnlockedTiers 6 dcsIncZero := by
  refine ⟨rfl, rfl, rfl, rfl, rfl, by decide, by decide, by decide, by decide,
    by decide, by decide, by decide⟩

/-- C3 (amended): for thresholds that are defined, NON-ZERO, and strictly
increasing across tiers 1..5, if the resolver unlocks a tier then it unlocks
every lower tier. -/
theorem c3_monotone_unlock_amended (rollTotal : Int) (dcs : Tier → Option Int)
    (hdef : ∀ t : Tier, ∃ d, dcs t = some d ∧ d ≠ 0)
    (hmono : ∀ s t : Tier, tierLevel s < tierLevel t →
      ∀ ds dt, dcs s = some ds → dcs t = some dt → ds < dt)
    (t s : Tier) (hst : tierLevel s < tierLevel t)
    (ht : (t, true) ∈ determineUnlockedTiers rollTotal dcs) :
    (s, true) ∈ determineUnlockedTiers rollTotal dcs := by
  obtain ⟨dt, hdt, hdtz, hb⟩ :=
    (mem_determineUnlockedTiersJs (some rollTotal) dcs t true).mp ht
  obtain ⟨ds, hds, hdsz⟩ := hdef s
  have htot : rollTotal ≥ dt := by
    have := hb.symm
    simpa [optGe] using this
  have hlt : ds < dt := hmono s t hst ds dt hds hdt
  refine (mem_determineUnlockedTiersJs (some rollTotal) dcs s true).mpr
    ⟨ds, hds, hdsz, ?_⟩
  simp [optGe]
  omega

/-- C3 witness: with the default thresholds 12, 15, 18, 22, 25 (strictly
increasing and non-zero) and effective total 20, tier 3 is unlocked, the
amended theorem yields that tier 1 is unlocked, and the full resolver output
unlocks exactly tiers 1 to 3. -/
theorem c3_monotone_unlock_amended_witness :
    (Tier.tier1, true) ∈ determineUnlockedTiers 20 dcsDefault ∧
      determineUnlockedTiers 20 dcsDefault =
        [(.tier1, true), (.tier2, true), (.tier3, true),
         (.tier4, false), (.tier5, false)] := by
  refine ⟨?_, by decide⟩
  exact c3_monotone_unlock_amended 20 dcsDefault
    (by intro t; cases t <;> exact ⟨_, rfl, by decide⟩)
    (by intro s t hst ds dt hs ht;
        cases s <;> cases t <;> simp [tierLevel] at hst ⊢ <;>
          simp [dcsDefault] at hs ht <;> omega)
    .tier3 .tier1 (by decide) (by decide)

/-- Per-tier configuration as produced by getAllTierConfig: a difficulty
value and the ordered list of configured information kinds. -/
structure TierConfigEntry where
  dc : Int
  info : List String
deriving DecidableEq, Repr

/-- The dcs object built by performKnowledgeCheck: tiers 1 to 4 always get
their configured dc plus the difficulty modifier; tier 5 is included only if
its configured dc is truthy (non-zero) and its info list is non-empty. -/
def buildDcs (tc : Tier → TierConfigEntry) (dcModifier : Int) :
    Tier → Option Int := fun t =>
  match t with
  | .tier5 =>
    if (tc .tier5).dc ≠ 0 ∧ (tc .tier5).info ≠ [] then
      some ((tc .tier5).dc + dcModifier)
    else none
  | t => some ((tc t).dc + dcModifier)

/-- The autopass branch of performKnowledgeCheck: the effective total is
dcs[autopass] (undefined when the named tier is not configured), and the
unlocked tiers are determined from that effective total. -/
def performAutopassCheck (tc : Tier → TierConfigEntry) (dcModifier : Int)
    (autopassTier : Tier) : Option Int × List (Tier × Bool) :=
  let dcs := buildDcs tc dcModifier
  (dcs autopassTier, determineUnlockedTiersJs (dcs autopassTier) dcs)

/-- The default tier configuration: thresholds 12, 15, 18, 22, 25, each tier
with a non-empty information-kind list. -/
def tcDefault : Tier → TierConfigEntry
  | .tier1 => ⟨12, ["resistances"]⟩
  | .tier2 => ⟨15, ["conditionImmunities"]⟩
  | .tier3 => ⟨18, ["highestStat"]⟩
  | .tier4 => ⟨22, ["lowestStat"]⟩
  | .tier5 => ⟨25, ["legendaryActions"]⟩

/-- C4 counterexample: autopass at the configured tier 3 with difficulty
modifier -12 over the monotonic thresholds 12, 15, 18, 22, 25 produces
effective total 18 - 12 = 6 = thresholds[tier3] + modifier, and tier 3
unlocks; but tier 1, whose threshold 12 is numerically lower than tier 3's
threshold 18, does NOT unlock, because its adjusted threshold 12 - 12 = 0 is
falsy and tier 1 is omitted. The claim that tier T and all tiers with
numerically lower thresholds unlock is therefore false at this input. -/
theorem c4_autopass_cex :
    (performAutopassCheck tcDefault (-12) .tier3).1 = some 6 ∧
      (tcDefault .tier1).dc = 12 ∧ (tcDefault .tier3).dc = 18 ∧
      (12 : Int) < 18 ∧
      (Tier.tier3, true) ∈ (performAutopassCheck tcDefault (-12) .tier3).2 ∧
      (Tier.tier1, true) ∉ (performAutopassCheck tcDefault (-12) .tier3).2 ∧
      (Tier.tier1, false) ∉ (performAutopassCheck tcDefault (-12) .tier3).2 := by
  refine ⟨by decide, rfl, rfl, by decide, by decide, by decide, by decide⟩

/-- C4 (amended): for autopass at a configured tier T with modifier m, the
effective total equals thresholds[T] + m; and any tier s whose
modifier-adjusted threshold ds is defined and non-zero unlocks exactly when
ds is at most the effective total (hence, with monotonic thresholds and all
adjusted thresholds non-zero, tier T and all lower-threshold tiers unlock
and no higher-threshold tier unlocks; a tier whose adjusted threshold is
zero is omitted and does not unlock). -/
theorem c4_autopass_amended (tc : Tier → TierConfigEntry) (dcModifier : Int)
    (autopassTier : Tier) (e : Int)
    (he : buildDcs tc dcModifier autopassTier = some e) :
    e = (tc autopassTier).dc + dcModifier ∧
      ∀ s ds, buildDcs tc dcModifier s = some ds → ds ≠ 0 →
        ((s, true) ∈ (performAutopassCheck tc dcModifier autopassTier).2 ↔
          ds ≤ e) := by
  constructor
  · cases autopassTier <;> simp only [buildDcs] at he <;>
      first
        | exact (Option.some.inj he).symm
        | (split at he
           · exact (Option.some.inj he).symm
           · exact absurd he (by simp))
  · intro s ds hds hdsz
    rw [performAutopassCheck]
    simp only [he]
    rw [mem_determineUnlockedTiersJs]
    constructor
    · rintro ⟨d, hd, -, hb⟩
      rw [hds] at hd
      obtain rfl := Option.some.inj hd
      have := hb.symm
      simp [optGe] at this
      omega
    · intro hle
      exact ⟨ds, hds, hdsz, by simp [optGe]; omega⟩

/-- C4 witness: autopass at tier 3 with modifier +2 over thresholds
12, 15, 18, 22, 25 yields effective total 18 + 2 = 20; the amended theorem
gives that tier 1 (adjusted threshold 14, non-zero, 14 <= 20) unlocks, and
the full output unlocks exactly tiers 1 to 3. -/
theorem c4_autopass_amended_witness :
    (20 : Int) = (tcDefault .tier3).dc + 2 ∧
      (Tier.tier1, true) ∈ (performAutopassCheck tcDefault 2 .tier3).2 ∧
      (performAutopassCheck tcDefault 2 .tier3).2 =
        [(.tier1, true), (.tier2, true), (.tier3, true),
         (.tier4, false), (.tier5, false)] := by
  refine ⟨?_, ?_, by decide⟩
  · exact (c4_autopass_amended tcDefault 2 .tier3 20 (by decide)).1
  · exact ((c4_autopass_amended tcDefault 2 .tier3 20 (by decide)).2
      .tier1 14 (by decide) (by decide)).mpr (by decide)

/-- The host i18n facility, embedded as the identity on localization keys
(localization contents are out of scope; only key identity matters). -/
def localize (key : String) : String := key

/-- game.i18n.format over a template key with a date substitution, embedded
as the key followed by the bracketed date. -/
def localizeFormatDate (key date : String) : String :=
  key ++ "[" ++ date ++ "]"

/-- A display item of the knowledge bundle: a scalar value with optional
formula, a list with empty-state text, or a nested group of sub-lists.
The three shapes mirror the subItems / items / value probes of the code. -/
inductive InfoItem where
  | scalar (label : String) (value : String) (formula : Option String)
  | listItem (label : String) (items : List String) (emptyText : String)
  | group (label : String) (subItems : List (String × List String))
deriving DecidableEq, Repr

/-- A trait set such as traits.dv or traits.languages: a list of type
identifiers plus a custom free-text entry (empty string when absent). -/
structure DamageTrait where
  value : List String
  custom : String
deriving DecidableEq, Repr

/-- The movement attribute group. -/
structure Movement where
  walk : Int
  fly : Int
  swim : Int
  climb : Int
  burrow : Int
  units : String
  hover : Bool
deriving DecidableEq, Repr

/-- The senses attribute group. -/
structure Senses where
  darkvision : Int
  blindsight : Int
  tremorsense : Int
  truesight : Int
  units : String
  special : String
deriving DecidableEq, Repr

/-- details.type: a creature type identifier and subtype free text. -/
structure CreatureTypeInfo where
  value : Option String
  subtype : String
deriving DecidableEq, Repr

/-- One ability-score entry: the score and the (possibly absent) save
modifier, collapsing the save?.value ?? save ?? 0 chain to an Option. -/
structure AbilityScore where
  value : Int
  save : Option Int
deriving DecidableEq, Repr

/-- The monster actor data consumed by the information extractor, with
Option fields wherever the code uses optional chaining or falsy guards.
The abilities map is an insertion-ordered association list, iterated by
Object.entries in the fixed canonical ability order. -/
structure MonsterView where
  dv : Option DamageTrait
  dr : Option DamageTrait
  di : Option DamageTrait
  ci : Option DamageTrait
  languages : Option DamageTrait
  acValue : Option Int
  hpMax : Option Int
  hpFormula : String
  movement : Option Movement
  senses : Option Senses
  cr : Option Int
  creatureType : Option CreatureTypeInfo
  abilities : List (String × AbilityScore)
  legactMax : Option Int
  legresMax : Option Int
deriving Repr

/-- A label table entry of CONFIG.DND5E (damageTypes, conditionTypes,
languages, creatureTypes). -/
structure ConfigEntry where
  label : String
deriving DecidableEq, Repr

/-- A CONFIG.DND5E.abilities entry: label and optional abbreviation. -/
structure AbilityConfigEntry where
  label : String
  abbreviation : Option String
deriving DecidableEq, Repr

/-- The external CONFIG.DND5E label tables consulted by the extractor. -/
structure Dnd5eConfig where
  damageTypes : String → Option ConfigEntry
  conditionTypes : String → Option ConfigEntry
  languageTable : String → Option ConfigEntry
  creatureTypes : String → Option ConfigEntry
  abilities : String → Option AbilityConfigEntry

/-- The lookup pattern table[id]?.label || id: the label when present and
non-empty, the raw identifier otherwise. -/
def labelOr (table : String → Option ConfigEntry) (id : String) : String :=
  match table id with
  | some c => if c.label = "" then id else c.label
  | none => id

/-- An absent numeric value rendered with the dash placeholder. -/
def renderNum : Option Int → String
  | some v => toString v
  | none => "—"

/-- parts.join(sep) with the || dash fallback on the final string. -/
def joinOrDash (parts : List String) : String :=
  let s := String.intercalate ", " parts
  if s = "" then "—" else s

/-- formatDamageTraits: a falsy trait yields no entries; otherwise each type
identifier is mapped through the damage-type label table and the custom
free text, when truthy, is appended. -/
def formatDamageTraits (table : String → Option ConfigEntry)
    (trait : Option DamageTrait) : List String :=
  match trait with
  | none => []
  | some tr =>
    tr.value.map (labelOr table) ++ (if tr.custom = "" then [] else [tr.custom])

/-- getResistancesInfo: one list item per non-empty damage-trait category
(vulnerabilities, resistances, immunities, in that order); when all three
are empty, a single scalar placeholder item instead. -/
def getResistancesInfo (cfg : Dnd5eConfig) (m : MonsterView) : List InfoItem :=
  let vuln := formatDamageTraits cfg.damageTypes m.dv
  let res := formatDamageTraits cfg.damageTypes m.dr
  let imm := formatDamageTraits cfg.damageTypes m.di
  let infoItems :=
    (if vuln ≠ [] then
      [InfoItem.listItem (localize "MKC.Chat.DamageVulnerabilities") vuln ""]
     else []) ++
    (if res ≠ [] then
      [InfoItem.listItem (localize "MKC.Chat.DamageResistances") res ""]
     else []) ++
    (if imm ≠ [] then
      [InfoItem.listItem (localize "MKC.Chat.DamageImmunities") imm ""]
     else [])
  if infoItems = [] then
    [InfoItem.scalar (localize "MKC.Chat.DamageTraits")
      (localize "MKC.Chat.NoDamageTraits") none]
  else infoItems

/-- getConditionImmunities: the condition identifiers mapped through the
condition-type label table, custom free text appended when truthy. -/
def getConditionImmunities (cfg : Dnd5eConfig) (m : MonsterView) : List String :=
  match m.ci with
  | none => []
  | some tr =>
    tr.value.map (labelOr cfg.conditionTypes) ++
      (if tr.custom = "" then [] else [tr.custom])

/-- getConditionImmunitiesInfo: always a single list item, with the
no-condition-immunities empty-state text. -/
def getConditionImmunitiesInfo (cfg : Dnd5eConfig) (m : MonsterView) : InfoItem :=
  InfoItem.listItem (localize "MKC.InfoType.ConditionImmunities")
    (getConditionImmunities cfg m) (localize "MKC.Chat.NoConditionImmunities")

/-- The record built for the winning ability entry of the highest/lowest
stat scan. -/
structure StatPick where
  id : String
  value : Int
  save : Int
  label : String
deriving DecidableEq, Repr

/-- The abilities[id]?.label || id lookup. -/
def abilityLabelOr (cfg : Dnd5eConfig) (id : String) : String :=
  match cfg.abilities id with
  | some c => if c.label = "" then id else c.label
  | none => id

/-- The abilities[id]?.abbreviation?.toUpperCase() || id lookup. -/
def abilityAbbrOr (cfg : Dnd5eConfig) (id : String) : String :=
  match (cfg.abilities id).bind (fun c => c.abbreviation) with
  | some ab => if ab.toUpper = "" then id else ab.toUpper
  | none => id

/-- The StatPick built from one ability entry (id, value, save with its
?? 0 default, label from the ability table). -/
def mkStatPick (cfg : Dnd5eConfig) (p : String × AbilityScore) : StatPick :=
  ⟨p.1, p.2.value, p.2.save.getD 0, abilityLabelOr cfg p.1⟩

/-- The loop of getHighestStat: starting from the current best entry, a
later entry replaces it only when its value is STRICTLY greater, so ties
keep the earlier entry. The -Infinity initialization of the source means
the first entry always becomes the initial best. -/
def bestHigh (p : String × AbilityScore) :
    List (String × AbilityScore) → String × AbilityScore
  | [] => p
  | a :: l => bestHigh (if a.2.value > p.2.value then a else p) l

/-- The loop of getLowestStat: strictly smaller value replaces, ties keep
the earlier entry; the Infinity initialization makes the first entry the
initial best. -/
def bestLow (p : String × AbilityScore) :
    List (String × AbilityScore) → String × AbilityScore
  | [] => p
  | a :: l => bestLow (if a.2.value < p.2.value then a else p) l

/-- getHighestStat: null for an empty ability map, otherwise the record of
the first entry attaining the maximum value. -/
def getHighestStat (cfg : Dnd5eConfig) (m : MonsterView) : Option StatPick :=
  match m.abilities with
  | [] => none
  | a :: l => some (mkStatPick cfg (bestHigh a l))

/-- getLowestStat: null for an empty ability map, otherwise the record of
the first entry attaining the minimum value. -/
def getLowestStat (cfg : Dnd5eConfig) (m : MonsterView) : Option StatPick :=
  match m.abilities with
  | [] => none
  | a :: l => some (mkStatPick cfg (bestLow a l))

/-- The save sign prefixed in stat formatting: "+" for non-negative. -/
def saveSign (save : Int) : String := if save ≥ 0 then "+" else ""

/-- getHighestStatInfo: nothing when the stat scan returns null, otherwise
one scalar item "label: value (save: ±N)". -/
def getHighestStatInfo (cfg : Dnd5eConfig) (m : MonsterView) : List InfoItem :=
  match getHighestStat cfg m with
  | none => []
  | some s =>
    [InfoItem.scalar (localize "MKC.Chat.HighestStat")
      (s.label ++ ": " ++ toString s.value ++ " (" ++ localize "MKC.Chat.Save"
        ++ ": " ++ saveSign s.save ++ toString s.save ++ ")") none]

/-- getLowestStatInfo: nothing when the stat scan returns null, otherwise
one scalar item "label: value (save: ±N)". -/
def getLowestStatInfo (cfg : Dnd5eConfig) (m : MonsterView) : List InfoItem :=
  match getLowestStat cfg m with
  | none => []
  | some s =>
    [InfoItem.scalar (localize "MKC.Chat.LowestStat")
      (s.label ++ ": " ++ toString s.value ++ " (" ++ localize "MKC.Chat.Save"
        ++ ": " ++ saveSign s.save ++ toString s.save ++ ")") none]

/-- movement.units || "ft." and senses.units || "ft.". -/
def unitsOr (units : String) : String := if units = "" then "ft." else units

/-- formatSpeed: present (non-zero) movement modes joined with commas, dash
when nothing is present. -/
def formatSpeed (m : MonsterView) : String :=
  match m.movement with
  | none => "—"
  | some mv =>
    let parts :=
      (if mv.walk ≠ 0 then
        [toString mv.walk ++ " " ++ unitsOr mv.units] else []) ++
      (if mv.fly ≠ 0 then
        ["fly " ++ toString mv.fly ++ " " ++ unitsOr mv.units ++
          (if mv.hover then " (hover)" else "")] else []) ++
      (if mv.swim ≠ 0 then
        ["swim " ++ toString mv.swim ++ " " ++ unitsOr mv.units] else []) ++
      (if mv.climb ≠ 0 then
        ["climb " ++ toString mv.climb ++ " " ++ unitsOr mv.units] else []) ++
      (if mv.burrow ≠ 0 then
        ["burrow " ++ toString mv.burrow ++ " " ++ unitsOr mv.units] else [])
    joinOrDash parts

/-- formatSenses: present (non-zero) senses and truthy special text joined
with commas, dash when nothing is present. -/
def formatSenses (m : MonsterView) : String :=
  match m.senses with
  | none => "—"
  | some sn =>
    let u := unitsOr sn.units
    let parts :=
      (if sn.darkvision ≠ 0 then
        ["darkvision " ++ toString sn.darkvision ++ " " ++ u] else []) ++
      (if sn.blindsight ≠ 0 then
        ["blindsight " ++ toString sn.blindsight ++ " " ++ u] else []) ++
      (if sn.tremorsense ≠ 0 then
        ["tremorsense " ++ toString sn.tremorsense ++ " " ++ u] else []) ++
      (if sn.truesight ≠ 0 then
        ["truesight " ++ toString sn.truesight ++ " " ++ u] else []) ++
      (if sn.special ≠ "" then [sn.special] else [])
    joinOrDash parts

/-- formatLanguages: language identifiers mapped through the language label
table, custom free text appended, joined with commas, dash fallback. -/
def formatLanguages (cfg : Dnd5eConfig) (m : MonsterView) : String :=
  match m.languages with
  | none => "—"
  | some tr =>
    joinOrDash (tr.value.map (labelOr cfg.languageTable) ++
      (if tr.custom = "" then [] else [tr.custom]))

/-- formatCreatureType: the creature-type label (table label || raw value ||
dash), with the subtype appended in parentheses when truthy. -/
def formatCreatureType (cfg : Dnd5eConfig) (m : MonsterView) : String :=
  let tv := m.creatureType.bind (fun t => t.value)
  let typeLabel :=
    match tv with
    | some v =>
      match cfg.creatureTypes v with
      | some c =>
        if c.label ≠ "" then c.label else (if v ≠ "" then v else "—")
      | none => if v ≠ "" then v else "—"
    | none => "—"
  match m.creatureType with
  | some t =>
    if t.subtype ≠ "" then typeLabel ++ " (" ++ t.subtype ++ ")" else typeLabel
  | none => typeLabel

/-- formatAllStats: "ABBR: value" per ability entry, comma-joined. -/
def formatAllStats (cfg : Dnd5eConfig) (m : MonsterView) : String :=
  String.intercalate ", " (m.abilities.map fun p =>
    abilityAbbrOr cfg p.1 ++ ": " ++ toString p.2.value)

/-- formatAllSaves: "ABBR: ±save" per ability entry, comma-joined. -/
def formatAllSaves (cfg : Dnd5eConfig) (m : MonsterView) : String :=
  String.intercalate ", " (m.abilities.map fun p =>
    abilityAbbrOr cfg p.1 ++ ": " ++ saveSign (p.2.save.getD 0) ++
      toString (p.2.save.getD 0))

/-- getInfoByType: dispatch on the information-kind identifier. A null
return of the source (failed or unrecognized extraction) is the empty list;
the resistances kind may return several items. -/
def getInfoByType (cfg : Dnd5eConfig) (m : MonsterView)
    (infoType : String) : List InfoItem :=
  match infoType with
  | "resistances" => getResistancesInfo cfg m
  | "conditionImmunities" => [getConditionImmunitiesInfo cfg m]
  | "highestStat" => getHighestStatInfo cfg m
  | "lowestStat" => getLowestStatInfo cfg m
  | "ac" =>
    [InfoItem.scalar (localize "MKC.InfoType.AC") (renderNum m.acValue) none]
  | "hp" =>
    [InfoItem.scalar (localize "MKC.InfoType.HP") (renderNum m.hpMax)
      (if m.hpFormula = "" then none else some m.hpFormula)]
  | "speed" =>
    [InfoItem.scalar (localize "MKC.InfoType.Speed") (formatSpeed m) none]
  | "senses" =>
    [InfoItem.scalar (localize "MKC.InfoType.Senses") (formatSenses m) none]
  | "languages" =>
    [InfoItem.scalar (localize "MKC.InfoType.Languages")
      (formatLanguages cfg m) none]
  | "cr" =>
    [InfoItem.scalar (localize "MKC.InfoType.CR") (renderNum m.cr) none]
  | "creatureType" =>
    [InfoItem.scalar (localize "MKC.InfoType.CreatureType")
      (formatCreatureType cfg m) none]
  | "allStats" =>
    [InfoItem.scalar (localize "MKC.InfoType.AllStats")
      (formatAllStats cfg m) none]
  | "allSaves" =>
    [InfoItem.scalar (localize "MKC.InfoType.AllSaves")
      (formatAllSaves cfg m) none]
  | "legendaryActions" =>
    [InfoItem.scalar (localize "MKC.InfoType.LegendaryActions")
      (toString (m.legactMax.getD 0)) none]
  | "legendaryResistances" =>
    [InfoItem.scalar (localize "MKC.InfoType.LegendaryResistances")
      (toString (m.legresMax.getD 0)) none]
  | _ => []

/-- Localized tier label (tierLabels in gatherKnowledge). -/
def tierLabel : Tier → String
  | .tier1 => localize "MKC.Tier.I"
  | .tier2 => localize "MKC.Tier.II"
  | .tier3 => localize "MKC.Tier.III"
  | .tier4 => localize "MKC.Tier.IV"
  | .tier5 => localize "MKC.Tier.V"

/-- Tier icon (tierLabels in gatherKnowledge). -/
def tierIcon : Tier → String
  | .tier4 => "fas fa-crown"
  | .tier5 => "fas fa-gem"
  | _ => "fas fa-star"

/-- One tier of the knowledge bundle. -/
structure TierData where
  id : Tier
  label : String
  icon : String
  level : Nat
  unlocked : Bool
  info : List InfoItem
deriving DecidableEq, Repr

/-- The KnowledgeBundle: the gathered tier list plus the hasAny flag. -/
structure Knowledge where
  tiers : List TierData
  hasAny : Bool
deriving DecidableEq, Repr

/-- The tier item list built by the inner loop of gatherKnowledge: each
configured kind is extracted and its items appended; a null extraction
contributes nothing and the loop continues with the remaining kinds. -/
def extractTierItems (cfg : Dnd5eConfig) (m : MonsterView)
    (infoTypes : List String) : List InfoItem :=
  infoTypes.flatMap (getInfoByType cfg m)

/-- The tierData record pushed for an unlocked tier. -/
def mkTierData (t : Tier) (items : List InfoItem) : TierData :=
  ⟨t, tierLabel t, tierIcon t, tierLevel t, true, items⟩

/-- One iteration of the gatherKnowledge loop over the unlocked-tier
entries: a locked tier or an absent configuration leaves the accumulator
unchanged; an empty configured info list is skipped before hasAny is set;
otherwise hasAny becomes true and the tier is pushed only when its
extracted item list is non-empty. -/
def gatherStep (cfg : Dnd5eConfig) (m : MonsterView)
    (tierConfig : Tier → Option TierConfigEntry) (acc : Knowledge)
    (p : Tier × Bool) : Knowledge :=
  if p.2 then
    match tierConfig p.1 with
    | none => acc
    | some c =>
      if c.info.isEmpty then acc
      else
        let items := extractTierItems cfg m c.info
        if items.length > 0 then ⟨acc.tiers ++ [mkTierData p.1 items], true⟩
        else ⟨acc.tiers, true⟩
  else acc

/-- gatherKnowledge: fold the gather step over the entries of the
unlocked-tier set, starting from the empty bundle with hasAny false. -/
def gatherKnowledge (cfg : Dnd5eConfig) (unlockedTiers : List (Tier × Bool))
    (tierConfig : Tier → Option TierConfigEntry) (m : MonsterView) :
    Knowledge :=
  unlockedTiers.foldl (gatherStep cfg m tierConfig) ⟨[], false⟩

/-- An unlocked-tier entry makes hasAny true precisely when it is marked
unlocked and its tier has a present configuration with non-empty info. -/
def tierContributes (tierConfig : Tier → Option TierConfigEntry)
    (p : Tier × Bool) : Bool :=
  p.2 && (match tierConfig p.1 with
          | some c => !c.info.isEmpty
          | none => false)

/-- The hasAny flag after one gather step. -/
theorem gatherStep_hasAny (cfg : Dnd5eConfig) (m : MonsterView)
    (tc : Tier → Option TierConfigEntry) (acc : Knowledge) (p : Tier × Bool) :
    (gatherStep cfg m tc acc p).hasAny =
      (acc.hasAny || tierContributes tc p) := by
  rcases p with ⟨t, b⟩
  cases b with
  | false => simp [gatherStep, tierContributes]
  | true =>
    cases htc : tc t with
    | none => simp [gatherStep, tierContributes, htc]
    | some c =>
      by_cases hinfo : c.info.isEmpty
      · simp [gatherStep, tierContributes, htc, hinfo]
      · by_cases hlen : (extractTierItems cfg m c.info).length > 0
        · simp [gatherStep, tierContributes, htc, hinfo, hlen]
        · simp [gatherStep, tierContributes, htc, hinfo, hlen]

/-- The hasAny flag after folding the gather step over a list. -/
theorem foldl_gatherStep_hasAny (cfg : Dnd5eConfig) (m : MonsterView)
    (tc : Tier → Option TierConfigEntry) (l : List (Tier × Bool)) :
    ∀ acc : Knowledge,
      (l.foldl (gatherStep cfg m tc) acc).hasAny =
        (acc.hasAny || l.any (tierContributes tc)) := by
  induction l with
  | nil => intro acc; simp
  | cons p l ih =>
    intro acc
    rw [List.foldl_cons, ih, gatherStep_hasAny, List.any_cons, Bool.or_assoc]

/-- tierContributes spelled out. -/
theorem tierContributes_eq_true (tc : Tier → Option TierConfigEntry)
    (t : Tier) (b : Bool) :
    tierContributes tc (t, b) = true ↔
      b = true ∧ ∃ c, tc t = some c ∧ c.info ≠ [] := by
  rw [tierContributes]
  cases b with
  | false => simp
  | true =>
    cases htc : tc t with
    | none => simp
    | some c => simp [List.isEmpty_iff]

/-- C1 counterexample configuration: tier 1 unlocked and configured with
the single kind highestStat, which extracts nothing for a monster with an
empty ability map. -/
def cfgHighestOnly : Tier → Option TierConfigEntry
  | .tier1 => some ⟨10, ["highestStat"]⟩
  | _ => none

/-- A monster with no data at all: every optional field absent, empty
ability map. -/
def emptyMonster : MonsterView :=
  ⟨none, none, none, none, none, none, none, "", none, none, none, none,
    [], none, none⟩

/-- A CONFIG.DND5E instance with empty label tables, so every label lookup
falls back to the raw identifier. -/
def sampleConfig : Dnd5eConfig :=
  ⟨fun _ => none, fun _ => none, fun _ => none, fun _ => none, fun _ => none⟩

/-- C1 counterexample: tier 1 is unlocked with configured kind highestStat,
but the monster has an empty ability map so the extraction yields zero
items; the final bundle contains no tier at all, yet hasAny is true (the
flag is set before extraction runs). This refutes both directions stated by
the claim: hasAny is true without any tier holding an item, and hasAny is
not false although every unlocked tier's extraction yields zero items. -/
theorem c1_hasAny_cex :
    (gatherKnowledge sampleConfig [(Tier.tier1, true)] cfgHighestOnly
        emptyMonster).hasAny = true ∧
      (gatherKnowledge sampleConfig [(Tier.tier1, true)] cfgHighestOnly
        emptyMonster).tiers = [] ∧
      ¬((gatherKnowledge sampleConfig [(Tier.tier1, true)] cfgHighestOnly
          emptyMonster).hasAny = true ↔
        ∃ td ∈ (gatherKnowledge sampleConfig [(Tier.tier1, true)]
          cfgHighestOnly emptyMonster).tiers, td.info ≠ []) :=
  ⟨rfl, rfl, by decide⟩

/-- C1 (amended): hasAny is true iff at least one entry of the unlocked-tier
set is marked unlocked and has a present tier configuration with a non-empty
information-kind list; the flag is set before extraction, so it can be true
even when every such tier's extraction yields zero items and the bundle's
tier list is empty. -/
theorem c1_gather_hasAny_amended (cfg : Dnd5eConfig)
    (u : List (Tier × Bool)) (tc : Tier → Option TierConfigEntry)
    (m : MonsterView) :
    (gatherKnowledge cfg u tc m).hasAny = true ↔
      ∃ t b, (t, b) ∈ u ∧ b = true ∧
        ∃ c, tc t = some c ∧ c.info ≠ [] := by
  rw [gatherKnowledge, foldl_gatherStep_hasAny]
  simp only [Bool.false_or, List.any_eq_true]
  constructor
  · rintro ⟨⟨t, b⟩, hmem, hc⟩
    obtain ⟨hb, hrest⟩ := (tierContributes_eq_true tc t b).mp hc
    exact ⟨t, b, hmem, hb, hrest⟩
  · rintro ⟨t, b, hmem, hb, hrest⟩
    exact ⟨(t, b), hmem, (tierContributes_eq_true tc t b).mpr ⟨hb, hrest⟩⟩

/-- C1 witness: in the counterexample scenario the amended characterization
applies: tier 1 is unlocked with a present non-empty configuration, so
hasAny is true. -/
theorem c1_gather_hasAny_amended_witness :
    (gatherKnowledge sampleConfig [(Tier.tier1, true)] cfgHighestOnly
        emptyMonster).hasAny = true :=
  (c1_gather_hasAny_amended sampleConfig [(Tier.tier1, true)] cfgHighestOnly
      emptyMonster).mpr
    ⟨.tier1, true, by decide, rfl, ⟨10, ["highestStat"]⟩, rfl, by decide⟩

/-- Membership in the tier list after one gather step. -/
theorem gatherStep_tiers_mem (cfg : Dnd5eConfig) (m : MonsterView)
    (tc : Tier → Option TierConfigEntry) (acc : Knowledge) (p : Tier × Bool)
    (td : TierData) (h : td ∈ (gatherStep cfg m tc acc p).tiers) :
    td ∈ acc.tiers ∨
      (td.info ≠ [] ∧ ∃ c, tc td.id = some c ∧ c.info ≠ []) := by
  rcases p with ⟨t, b⟩
  rw [gatherStep] at h
  cases b with
  | false => exact Or.inl h
  | true =>
    simp only [if_true] at h
    cases htc : tc t with
    | none => rw [htc] at h; exact Or.inl h
    | some c =>
      rw [htc] at h
      dsimp only at h
      by_cases hinfo : c.info.isEmpty
      · rw [if_pos hinfo] at h; exact Or.inl h
      · rw [if_neg hinfo] at h
        by_cases hlen : (extractTierItems cfg m c.info).length > 0
        · rw [if_pos hlen] at h
          simp only [List.mem_append, List.mem_singleton] at h
          rcases h with h | h
          · exact Or.inl h
          · subst h
            refine Or.inr ⟨?_, c, htc, ?_⟩
            · intro hnil
              rw [mkTierData] at hnil
              simp only at hnil
              rw [hnil] at hlen
              simp at hlen
            · intro hcnil
              rw [hcnil] at hinfo
              simp at hinfo
        · rw [if_neg hlen] at h; exact Or.inl h

/-- Membership in the tier list after folding the gather step. -/
theorem foldl_gatherStep_tiers_mem (cfg : Dnd5eConfig) (m : MonsterView)
    (tc : Tier → Option TierConfigEntry) (l : List (Tier × Bool)) :
    ∀ acc : Knowledge, ∀ td ∈ (l.foldl (gatherStep cfg m tc) acc).tiers,
      td ∈ acc.tiers ∨
        (td.info ≠ [] ∧ ∃ c, tc td.id = some c ∧ c.info ≠ []) := by
  induction l with
  | nil => intro acc td h; exact Or.inl h
  | cons p l ih =>
    intro acc td h
    rw [List.foldl_cons] at h
    rcases ih (gatherStep cfg m tc acc p) td h with h2 | h2
    · exact gatherStep_tiers_mem cfg m tc acc p td h2
    · exact Or.inr h2

/-- C5: every tier of the gathered bundle has a present configuration with
a non-empty information-kind list and a non-empty extracted item list; and
an information kind whose extraction fails (yields nothing) contributes no
item while leaving the extraction of the remaining kinds of the tier
unchanged. -/
theorem c5_gather_omits_empty_tiers (cfg : Dnd5eConfig)
    (u : List (Tier × Bool)) (tc : Tier → Option TierConfigEntry)
    (m : MonsterView) :
    (∀ td ∈ (gatherKnowledge cfg u tc m).tiers,
        td.info ≠ [] ∧ ∃ c, tc td.id = some c ∧ c.info ≠ []) ∧
      (∀ kind l1 l2, getInfoByType cfg m kind = [] →
        extractTierItems cfg m (l1 ++ kind :: l2) =
          extractTierItems cfg m (l1 ++ l2)) := by
  constructor
  · intro td h
    rcases foldl_gatherStep_tiers_mem cfg m tc u ⟨[], false⟩ td h with h2 | h2
    · simp at h2
    · exact h2
  · intro kind l1 l2 hkind
    rw [extractTierItems, extractTierItems]
    simp [List.flatMap_append, List.flatMap_cons, hkind]

/-- C5 witness: with tier 1 unlocked and configured with the empty
information-kind list, the bundle has zero tiers (and the tier-membership
property holds vacuously); a failing kind in the middle of a kind list
leaves the remaining extraction unchanged. -/
theorem c5_gather_omits_empty_tiers_witness :
    (∀ td ∈ (gatherKnowledge sampleConfig [(Tier.tier1, true)]
        (fun t => if t = .tier1 then some ⟨10, []⟩ else none)
        emptyMonster).tiers,
        td.info ≠ [] ∧ ∃ c,
          (fun t => if t = Tier.tier1 then some (⟨10, []⟩ : TierConfigEntry)
            else none) td.id = some c ∧ c.info ≠ []) ∧
      (gatherKnowledge sampleConfig [(Tier.tier1, true)]
        (fun t => if t = .tier1 then some ⟨10, []⟩ else none)
        emptyMonster).tiers = [] ∧
      extractTierItems sampleConfig emptyMonster ["bogus", "ac"] =
        extractTierItems sampleConfig emptyMonster ["ac"] :=
  ⟨(c5_gather_omits_empty_tiers sampleConfig [(Tier.tier1, true)]
      (fun t => if t = .tier1 then some ⟨10, []⟩ else none) emptyMonster).1,
    rfl,
    (c5_gather_omits_empty_tiers sampleConfig [] (fun _ => none)
      emptyMonster).2 "bogus" [] ["ac"] rfl⟩

/-- C6: the resistances extraction yields the single placeholder item
exactly when all three damage-trait categories format to empty lists; its
item count otherwise equals the number of non-empty categories; each
non-empty category contributes its one list item carrying the category's
formatted type labels; and formatting a present trait maps the type
identifiers through the damage-type label table and appends the custom
free text when it is non-empty. -/
theorem c6_resistances_items (cfg : Dnd5eConfig) (m : MonsterView) :
    (getResistancesInfo cfg m =
        [InfoItem.scalar (localize "MKC.Chat.DamageTraits")
          (localize "MKC.Chat.NoDamageTraits") none] ↔
      formatDamageTraits cfg.damageTypes m.dv = [] ∧
        formatDamageTraits cfg.damageTypes m.dr = [] ∧
        formatDamageTraits cfg.damageTypes m.di = []) ∧
    (getResistancesInfo cfg m).length =
      (if formatDamageTraits cfg.damageTypes m.dv = [] ∧
          formatDamageTraits cfg.damageTypes m.dr = [] ∧
          formatDamageTraits cfg.damageTypes m.di = [] then 1
       else
        (if formatDamageTraits cfg.damageTypes m.dv = [] then 0 else 1) +
        (if formatDamageTraits cfg.damageTypes m.dr = [] then 0 else 1) +
        (if formatDamageTraits cfg.damageTypes m.di = [] then 0 else 1)) ∧
    (formatDamageTraits cfg.damageTypes m.dv ≠ [] →
      InfoItem.listItem (localize "MKC.Chat.DamageVulnerabilities")
        (formatDamageTraits cfg.damageTypes m.dv) "" ∈
        getResistancesInfo cfg m) ∧
    (formatDamageTraits cfg.damageTypes m.dr ≠ [] →
      InfoItem.listItem (localize "MKC.Chat.DamageResistances")
        (formatDamageTraits cfg.damageTypes m.dr) "" ∈
        getResistancesInfo cfg m) ∧
    (formatDamageTraits cfg.damageTypes m.di ≠ [] →
      InfoItem.listItem (localize "MKC.Chat.DamageImmunities")
        (formatDamageTraits cfg.damageTypes m.di) "" ∈
        getResistancesInfo cfg m) ∧
    (∀ tr : DamageTrait, formatDamageTraits cfg.damageTypes (some tr) =
      tr.value.map (labelOr cfg.damageTypes) ++
        (if tr.custom = "" then [] else [tr.custom])) := by
  refine ⟨?_, ?_, ?_, ?_, ?_, fun tr => rfl⟩ <;>
    (by_cases hv : formatDamageTraits cfg.damageTypes m.dv = [] <;>
      by_cases hr : formatDamageTraits cfg.damageTypes m.dr = [] <;>
        by_cases hi : formatDamageTraits cfg.damageTypes m.di = [] <;>
          simp [getResistancesInfo, hv, hr, hi])

/-- A monster with a single fire vulnerability and custom resistance text,
used to exercise the non-empty branches of the resistances extraction. -/
def monsterFire : MonsterView :=
  { emptyMonster with dv := some ⟨["fire"], ""⟩, dr := some ⟨[], "silvered"⟩ }

/-- C6 witness: a monster with no damage traits yields exactly the single
placeholder item (via the placeholder direction of the theorem), and a
monster with a fire vulnerability and a custom resistance yields the two
corresponding list items (via the membership directions). -/
theorem c6_resistances_items_witness :
    getResistancesInfo sampleConfig emptyMonster =
      [InfoItem.scalar (localize "MKC.Chat.DamageTraits")
        (localize "MKC.Chat.NoDamageTraits") none] ∧
    InfoItem.listItem (localize "MKC.Chat.DamageVulnerabilities")
        ["fire"] "" ∈ getResistancesInfo sampleConfig monsterFire ∧
    InfoItem.listItem (localize "MKC.Chat.DamageResistances")
        ["silvered"] "" ∈ getResistancesInfo sampleConfig monsterFire ∧
    (getResistancesInfo sampleConfig monsterFire).length = 2 :=
  ⟨(c6_resistances_items sampleConfig emptyMonster).1.mpr
      ⟨rfl, rfl, rfl⟩,
    (c6_resistances_items sampleConfig monsterFire).2.2.1 (by decide),
    (c6_resistances_items sampleConfig monsterFire).2.2.2.1 (by decide),
    by decide⟩

/-- The invariant of the highest-stat loop: the selected entry splits the
scanned entries into a strictly-smaller left part and the rest, and bounds
every scanned value from above; hence it is the first entry attaining the
maximum value. -/
theorem bestHigh_spec (l : List (String × AbilityScore)) :
    ∀ p : String × AbilityScore,
      ∃ pre post, p :: l = pre ++ bestHigh p l :: post ∧
        (∀ q ∈ pre, q.2.value < (bestHigh p l).2.value) ∧
        (∀ q ∈ p :: l, q.2.value ≤ (bestHigh p l).2.value) := by
  induction l with
  | nil =>
    intro p
    refine ⟨[], [], rfl, by simp, ?_⟩
    intro q hq
    rw [List.mem_singleton] at hq
    subst hq
    exact le_refl _
  | cons a l ih =>
    intro p
    by_cases hcmp : a.2.value > p.2.value
    · have hstep : bestHigh p (a :: l) = bestHigh a l := by
        simp only [bestHigh, if_pos hcmp]
      obtain ⟨pre, post, heq, hpre, hall⟩ := ih a
      have hba : a.2.value ≤ (bestHigh a l).2.value :=
        hall a (List.mem_cons_self a l)
      refine ⟨p :: pre, post, ?_, ?_, ?_⟩
      · rw [hstep, List.cons_append, ← heq]
      · intro q hq
        rw [hstep]
        rcases List.mem_cons.mp hq with hq1 | hq2
        · subst hq1; omega
        · exact hpre q hq2
      · intro q hq
        rw [hstep]
        rcases List.mem_cons.mp hq with hq1 | hq2
        · subst hq1; omega
        · exact hall q hq2
    · have hstep : bestHigh p (a :: l) = bestHigh p l := by
        simp only [bestHigh, if_neg hcmp]
      have ha_le : a.2.value ≤ p.2.value := le_of_not_lt hcmp
      obtain ⟨pre, post, heq, hpre, hall⟩ := ih p
      have hp_le : p.2.value ≤ (bestHigh p l).2.value :=
        hall p (List.mem_cons_self p l)
      cases pre with
      | nil =>
        rw [List.nil_append] at heq
        injection heq with h1 h2
        refine ⟨[], a :: post, ?_, by simp, ?_⟩
        · rw [hstep, List.nil_append, ← h1, h2]
        · intro q hq
          rw [hstep, ← h1]
          rcases List.mem_cons.mp hq with hq1 | hq2
          · subst hq1; exact le_refl _
          rcases List.mem_cons.mp hq2 with hq3 | hq4
          · subst hq3; exact ha_le
          · have hqv := hall q (List.mem_cons_of_mem p hq4)
            rw [← h1] at hqv
            exact hqv
      | cons x pre2 =>
        rw [List.cons_append] at heq
        injection heq with h1 h2
        subst h1
        have hpbest : p.2.value < (bestHigh p l).2.value :=
          hpre p (List.mem_cons_self p pre2)
        refine ⟨p :: a :: pre2, post, ?_, ?_, ?_⟩
        · rw [hstep]
          simp only [List.cons_append]
          rw [← h2]
        · intro q hq
          rw [hstep]
          rcases List.mem_cons.mp hq with hq1 | hq2
          · subst hq1; exact hpbest
          rcases List.mem_cons.mp hq2 with hq3 | hq4
          · subst hq3; exact lt_of_le_of_lt ha_le hpbest
          · exact hpre q (List.mem_cons_of_mem p hq4)
        · intro q hq
          rw [hstep]
          rcases List.mem_cons.mp hq with hq1 | hq2
          · subst hq1; exact hp_le
          rcases List.mem_cons.mp hq2 with hq3 | hq4
          · subst hq3; exact le_trans ha_le hp_le
          · exact hall q (List.mem_cons_of_mem p hq4)

/-- The invariant of the lowest-stat loop: the selected entry splits the
scanned entries into a strictly-greater left part and the rest, and bounds
every scanned value from below; hence it is the first entry attaining the
minimum value. -/
theorem bestLow_spec (l : List (String × AbilityScore)) :
    ∀ p : String × AbilityScore,
      ∃ pre post, p :: l = pre ++ bestLow p l :: post ∧
        (∀ q ∈ pre, (bestLow p l).2.value < q.2.value) ∧
        (∀ q ∈ p :: l, (bestLow p l).2.value ≤ q.2.value) := by
  induction l with
  | nil =>
    intro p
    refine ⟨[], [], rfl, by simp, ?_⟩
    intro q hq
    rw [List.mem_singleton] at hq
    subst hq
    exact le_refl _
  | cons a l ih =>
    intro p
    by_cases hcmp : a.2.value < p.2.value
    · have hstep : bestLow p (a :: l) = bestLow a l := by
        simp only [bestLow, if_pos hcmp]
      obtain ⟨pre, post, heq, hpre, hall⟩ := ih a
      have hba : (bestLow a l).2.value ≤ a.2.value :=
        hall a (List.mem_cons_self a l)
      refine ⟨p :: pre, post, ?_, ?_, ?_⟩
      · rw [hstep, List.cons_append, ← heq]
      · intro q hq
        rw [hstep]
        rcases List.mem_cons.mp hq with hq1 | hq2
        · subst hq1; omega
        · exact hpre q hq2
      · intro q hq
        rw [hstep]
        rcases List.mem_cons.mp hq with hq1 | hq2
        · subst hq1; omega
        · exact hall q hq2
    · have hstep : bestLow p (a :: l) = bestLow p l := by
        simp only [bestLow, if_neg hcmp]
      have ha_ge : p.2.value ≤ a.2.value := le_of_not_lt hcmp
      obtain ⟨pre, post, heq, hpre, hall⟩ := ih p
      have hp_ge : (bestLow p l).2.value ≤ p.2.value :=
        hall p (List.mem_cons_self p l)
      cases pre with
      | nil =>
        rw [List.nil_append] at heq
        injection heq with h1 h2
        refine ⟨[], a :: post, ?_, by simp, ?_⟩
        · rw [hstep, List.nil_append, ← h1, h2]
        · intro q hq
          rw [hstep, ← h1]
          rcases List.mem_cons.mp hq with hq1 | hq2
          · subst hq1; exact le_refl _
          rcases List.mem_cons.mp hq2 with hq3 | hq4
          · subst hq3; exact ha_ge
          · have hqv := hall q (List.mem_cons_of_mem p hq4)
            rw [← h1] at hqv
            exact hqv
      | cons x pre2 =>
        rw [List.cons_append] at heq
        injection heq with h1 h2
        subst h1
        have hpbest : (bestLow p l).2.value < p.2.value :=
          hpre p (List.mem_cons_self p pre2)
        refine ⟨p :: a :: pre2, post, ?_, ?_, ?_⟩
        · rw [hstep]
          simp only [List.cons_append]
          rw [← h2]
        · intro q hq
          rw [hstep]
          rcases List.mem_cons.mp hq with hq1 | hq2
          · subst hq1; exact hpbest
          rcases List.mem_cons.mp hq2 with hq3 | hq4
          · subst hq3; exact lt_of_lt_of_le hpbest ha_ge
          · exact hpre q (List.mem_cons_of_mem p hq4)
        · intro q hq
          rw [hstep]
          rcases List.mem_cons.mp hq with hq1 | hq2
          · subst hq1; exact hp_ge
          rcases List.mem_cons.mp hq2 with hq3 | hq4
          · subst hq3; exact le_trans hp_ge ha_ge
          · exact hall q (List.mem_cons_of_mem p hq4)

/-- C7: for a non-empty ability map the highest-stat extraction returns the
record of an entry whose value bounds every entry's value from above and
which strictly exceeds every entry before it (so ties return the first
entry in the canonical iteration order), and dually the lowest-stat
extraction returns the first entry attaining the minimum value. -/
theorem c7_stat_extremes (cfg : Dnd5eConfig) (m : MonsterView)
    (h : m.abilities ≠ []) :
    (∃ pre post p, m.abilities = pre ++ p :: post ∧
        getHighestStat cfg m = some (mkStatPick cfg p) ∧
        (∀ q ∈ pre, q.2.value < p.2.value) ∧
        (∀ q ∈ m.abilities, q.2.value ≤ p.2.value)) ∧
      (∃ pre post p, m.abilities = pre ++ p :: post ∧
        getLowestStat cfg m = some (mkStatPick cfg p) ∧
        (∀ q ∈ pre, p.2.value < q.2.value) ∧
        (∀ q ∈ m.abilities, p.2.value ≤ q.2.value)) := by
  cases habs : m.abilities with
  | nil => exact absurd habs h
  | cons a l =>
    constructor
    · obtain ⟨pre, post, heq, hpre, hall⟩ := bestHigh_spec l a
      refine ⟨pre, post, bestHigh a l, heq, ?_, hpre, hall⟩
      rw [getHighestStat, habs]
    · obtain ⟨pre, post, heq, hpre, hall⟩ := bestLow_spec l a
      refine ⟨pre, post, bestLow a l, heq, ?_, hpre, hall⟩
      rw [getLowestStat, habs]

/-- A monster whose six abilities, in canonical order, all have value 10. -/
def monsterAllTens : MonsterView :=
  { emptyMonster with
    abilities := [("str", ⟨10, none⟩), ("dex", ⟨10, none⟩),
      ("con", ⟨10, none⟩), ("int", ⟨10, none⟩), ("wis", ⟨10, none⟩),
      ("cha", ⟨10, none⟩)] }

/-- C7 witness: on the all-tens monster both extractions apply (the ability
map is non-empty) and both deterministically return the canonically-first
ability, str. -/
theorem c7_stat_extremes_witness :
    getHighestStat sampleConfig monsterAllTens =
        some ⟨"str", 10, 0, "str"⟩ ∧
      getLowestStat sampleConfig monsterAllTens =
        some ⟨"str", 10, 0, "str"⟩ ∧
      ((∃ pre post p, monsterAllTens.abilities = pre ++ p :: post ∧
          getHighestStat sampleConfig monsterAllTens =
            some (mkStatPick sampleConfig p) ∧
          (∀ q ∈ pre, q.2.value < p.2.value) ∧
          (∀ q ∈ monsterAllTens.abilities, q.2.value ≤ p.2.value)) ∧
        (∃ pre post p, monsterAllTens.abilities = pre ++ p :: post ∧
          getLowestStat sampleConfig monsterAllTens =
            some (mkStatPick sampleConfig p) ∧
          (∀ q ∈ pre, p.2.value < q.2.value) ∧
          (∀ q ∈ monsterAllTens.abilities, p.2.value ≤ q.2.value))) :=
  ⟨rfl, rfl, c7_stat_extremes sampleConfig monsterAllTens (by decide)⟩

/-- The timestamp header line of a bestiary entry, followed by the
horizontal rule. -/
def lastUpdatedHeader (date : String) : String :=
  "<p><em>" ++ localizeFormatDate "MKC.Journal.LastUpdated" date ++
    "</em></p><hr>"

/-- The HTML rendered for one information item by buildBestiaryContent,
probing the subItems, items and scalar shapes in that order. -/
def renderInfoItem : InfoItem → String
  | .group label subItems =>
    "<p><strong>" ++ label ++ ":</strong></p><ul>" ++
      String.join (subItems.map fun sub =>
        "<li><strong>" ++ sub.1 ++ ":</strong> " ++
          String.intercalate ", " sub.2 ++ "</li>") ++ "</ul>"
  | .listItem label items emptyText =>
    if items ≠ [] then
      "<p><strong>" ++ label ++ ":</strong> " ++
        String.intercalate ", " items ++ "</p>"
    else
      "<p><strong>" ++ label ++ ":</strong> <em>" ++
        (if emptyText = "" then "None" else emptyText) ++ "</em></p>"
  | .scalar label value formula =>
    "<p><strong>" ++ label ++ ":</strong> " ++ value ++
      (match formula with
       | some f => if f = "" then "" else " (" ++ f ++ ")"
       | none => "") ++ "</p>"

/-- The HTML rendered for one tier of the bundle. -/
def renderTier (td : TierData) : String :=
  "<h3>" ++ td.label ++ "</h3>" ++ String.join (td.info.map renderInfoItem)

/-- buildBestiaryContent: the timestamp header followed by every tier of
the bundle (the monsterName parameter is accepted but unused, as in the
source). -/
def buildBestiaryContent (knowledge : Knowledge) (_monsterName date : String) :
    String :=
  lastUpdatedHeader date ++ String.join (knowledge.tiers.map renderTier)

/-- mergeBestiaryContent: the new content wholesale, discarding the
existing content. -/
def mergeBestiaryContent (_existingContent newContent : String) : String :=
  newContent

/-- A bestiary journal page: name and text content. -/
structure Page where
  name : String
  content : String
deriving DecidableEq, Repr

/-- The user-visible notification issued by addToBestiary. -/
inductive BestiaryNote where
  | errorMonsterNotFound
  | journalCreated
  | pageUpdated
  | pageAdded
deriving DecidableEq, Repr

/-- Update of the first page matching a name (the page found and updated by
addToBestiary); other pages are untouched. -/
def updateFirstPage : List Page → String → String → List Page
  | [], _, _ => []
  | p :: ps, n, c =>
    if p.name == n then { p with content := c } :: ps
    else p :: updateFirstPage ps n c

/-- addToBestiary: look the monster up; on failure report the error and
leave the bestiary untouched; otherwise render the bundle and either create
the journal with one page, update the existing page of that monster with
the merged (wholesale-replaced) content, or append a new page. -/
def addToBestiary (actors : String → Option String)
    (bestiary : Option (List Page)) (monsterId : String)
    (knowledge : Knowledge) (date : String) :
    Option (List Page) × BestiaryNote :=
  match actors monsterId with
  | none => (bestiary, .errorMonsterNotFound)
  | some monsterName =>
    let content := buildBestiaryContent knowledge monsterName date
    match bestiary with
    | none => (some [⟨monsterName, content⟩], .journalCreated)
    | some pages =>
      match pages.find? (fun p => p.name == monsterName) with
      | some existingPage =>
        (some (updateFirstPage pages monsterName
          (mergeBestiaryContent existingPage.content content)), .pageUpdated)
      | none => (some (pages ++ [⟨monsterName, content⟩]), .pageAdded)

/-- A successful find? splits the page list around the found page, whose
name matches, and updateFirstPage rewrites exactly that page's content. -/
theorem updateFirstPage_split (pages : List Page) (n c : String) (ep : Page)
    (h : pages.find? (fun p => p.name == n) = some ep) :
    ep.name = n ∧ ∃ pre post, pages = pre ++ ep :: post ∧
      (∀ q ∈ pre, (q.name == n) = false) ∧
      updateFirstPage pages n c = pre ++ Page.mk ep.name c :: post := by
  induction pages with
  | nil => simp at h
  | cons p ps ih =>
    by_cases hp : (p.name == n) = true
    · have hfc : List.find? (fun q => q.name == n) (p :: ps) = some p :=
        List.find?_cons_of_pos ps hp
      rw [hfc] at h
      obtain rfl := Option.some.inj h
      refine ⟨by simpa using hp, [], ps, rfl, by simp, ?_⟩
      rw [updateFirstPage, if_pos hp, List.nil_append]
    · have hfc : List.find? (fun q => q.name == n) (p :: ps) =
          List.find? (fun q => q.name == n) ps :=
        List.find?_cons_of_neg ps (by simpa using hp)
      rw [hfc] at h
      obtain ⟨hep, pre, post, hsplit, hpre, hupd⟩ := ih h
      refine ⟨hep, p :: pre, post, by rw [hsplit, List.cons_append], ?_, ?_⟩
      · intro q hq
        rcases List.mem_cons.mp hq with hq1 | hq2
        · subst hq1; simpa using hp
        · exact hpre q hq2
      · rw [updateFirstPage, if_neg hp, hupd, List.cons_append]

/-- C8: when the monster id resolves, committing a bundle with no bestiary
journal creates it with exactly one page holding the rendered bundle (which
begins with the timestamp header); with a journal but no page for the
monster, exactly one new page with the rendered bundle is appended; with an
existing page, that page's content is replaced wholesale by the newly
rendered bundle (the merge function returns the new content regardless of
the old), all other pages unchanged. -/
theorem c8_bestiary_merge (actors : String → Option String)
    (bestiary : Option (List Page)) (monsterId : String) (k : Knowledge)
    (date name : String) (hname : actors monsterId = some name) :
    (bestiary = none →
      addToBestiary actors bestiary monsterId k date =
        (some [⟨name, buildBestiaryContent k name date⟩],
          .journalCreated)) ∧
    (∀ pages, bestiary = some pages →
      pages.find? (fun p => p.name == name) = none →
      addToBestiary actors bestiary monsterId k date =
        (some (pages ++ [⟨name, buildBestiaryContent k name date⟩]),
          .pageAdded)) ∧
    (∀ pages ep, bestiary = some pages →
      pages.find? (fun p => p.name == name) = some ep →
      addToBestiary actors bestiary monsterId k date =
        (some (updateFirstPage pages name
          (buildBestiaryContent k name date)), .pageUpdated) ∧
      ∃ pre post, pages = pre ++ ep :: post ∧
        updateFirstPage pages name (buildBestiaryContent k name date) =
          pre ++ Page.mk ep.name (buildBestiaryContent k name date) ::
            post) ∧
    (∀ oldContent newContent,
      mergeBestiaryContent oldContent newContent = newContent) ∧
    (∃ rest, buildBestiaryContent k name date =
      lastUpdatedHeader date ++ rest) := by
  refine ⟨?_, ?_, ?_, fun o n => rfl, ⟨_, rfl⟩⟩
  · intro hb
    subst hb
    rw [addToBestiary, hname]
  · intro pages hb hfind
    subst hb
    rw [addToBestiary, hname]
    dsimp only
    rw [hfind]
  · intro pages ep hb hfind
    subst hb
    constructor
    · rw [addToBestiary, hname]
      dsimp only
      rw [hfind]
      rfl
    · obtain ⟨hep, pre, post, hsplit, hpre, hupd⟩ :=
        updateFirstPage_split pages name
          (buildBestiaryContent k name date) ep hfind
      exact ⟨pre, post, hsplit, hupd⟩

/-- The actor directory of the C8 and C10 witnesses: one monster, id m1,
named Goblin. -/
def actorsSample : String → Option String :=
  fun id => if id == "m1" then some "Goblin" else none

/-- A bestiary holding one prior Goblin record with unrelated content. -/
def pagesSample : List Page := [⟨"Goblin", "old recorded knowledge"⟩]

/-- The empty knowledge bundle: no tiers, hasAny false. -/
def knowledgeEmpty : Knowledge := ⟨[], false⟩

/-- C8 witness: committing for monster m1 with no journal creates exactly
the one-page journal; committing against the prior Goblin record replaces
the page through updateFirstPage with the newly rendered content,
discarding the old text. -/
theorem c8_bestiary_merge_witness :
    addToBestiary actorsSample none "m1" knowledgeEmpty "2026-10-11" =
      (some [⟨"Goblin",
        buildBestiaryContent knowledgeEmpty "Goblin" "2026-10-11"⟩],
        .journalCreated) ∧
    addToBestiary actorsSample (some pagesSample) "m1" knowledgeEmpty
        "2026-10-11" =
      (some (updateFirstPage pagesSample "Goblin"
        (buildBestiaryContent knowledgeEmpty "Goblin" "2026-10-11")),
        .pageUpdated) :=
  ⟨(c8_bestiary_merge actorsSample none "m1" knowledgeEmpty "2026-10-11"
      "Goblin" rfl).1 rfl,
    ((c8_bestiary_merge actorsSample (some pagesSample) "m1" knowledgeEmpty
      "2026-10-11" "Goblin" rfl).2.2.1 pagesSample
        ⟨"Goblin", "old recorded knowledge"⟩ rfl rfl).1⟩

/-- An actor of the host world: id, actor type, ownership flag. -/
structure GameActor where
  id : String
  type : String
  isOwner : Bool
deriving DecidableEq, Repr

/-- A targeted token, possibly without an actor. -/
structure Token where
  actor : Option GameActor
deriving DecidableEq, Repr

/-- The outcome of the knowledge-check click handler: one of the five
user-visible warnings (each of which aborts before any tier resolution or
extraction), or the opened dialog. -/
inductive ClickResult where
  | warnNoTokenTargeted
  | warnMultipleTokensTargeted
  | warnNoActorOnToken
  | warnNotAnNPC
  | warnNoPlayerCharacter
  | openDialog (monster : GameActor) (availableCharacters : List GameActor)
      (defaultCharacterId : String)
deriving DecidableEq, Repr

/-- getAvailableCharacters: all character-type actors for a GM, owned
character-type actors otherwise. -/
def getAvailableCharacters (allActors : List GameActor) (isGM : Bool) :
    List GameActor :=
  if isGM then allActors.filter (fun a => a.type == "character")
  else allActors.filter (fun a => a.type == "character" && a.isOwner)

/-- onMonsterKnowledgeClick: the guarded entry point. Zero targets,
multiple targets, a target without an actor, a non-npc actor, and an empty
available-character list each produce their warning and return; otherwise
the dialog opens with the user's assigned character (or the first available
one) preselected. -/
def onMonsterKnowledgeClick (targets : List Token)
    (allActors : List GameActor) (isGM : Bool)
    (userCharacter : Option GameActor) : ClickResult :=
  match targets with
  | [] => .warnNoTokenTargeted
  | _ :: _ :: _ => .warnMultipleTokensTargeted
  | [token] =>
    match token.actor with
    | none => .warnNoActorOnToken
    | some actor =>
      if actor.type ≠ "npc" then .warnNotAnNPC
      else
        match getAvailableCharacters allActors isGM with
        | [] => .warnNoPlayerCharacter
        | c :: rest =>
          .openDialog actor (c :: rest)
            ((match userCharacter with | some u => u | none => c).id)

/-- C9: each user precondition failure (no target, multiple targets, target
without actor, target not an npc, no eligible character) returns its
user-visible warning, a distinct outcome from opening the dialog, so the
check aborts before any tier resolution or extraction; and a bestiary
commit whose monster id does not resolve reports the monster-not-found
error and returns the bestiary unchanged. -/
theorem c9_precondition_warnings (targets : List Token)
    (allActors : List GameActor) (isGM : Bool)
    (userCharacter : Option GameActor) (actors : String → Option String)
    (bestiary : Option (List Page)) (monsterId : String) (k : Knowledge)
    (date : String) :
    (targets = [] →
      onMonsterKnowledgeClick targets allActors isGM userCharacter =
        .warnNoTokenTargeted) ∧
    (∀ t1 t2 rest, targets = t1 :: t2 :: rest →
      onMonsterKnowledgeClick targets allActors isGM userCharacter =
        .warnMultipleTokensTargeted) ∧
    (∀ tk, targets = [tk] → tk.actor = none →
      onMonsterKnowledgeClick targets allActors isGM userCharacter =
        .warnNoActorOnToken) ∧
    (∀ tk a, targets = [tk] → tk.actor = some a → a.type ≠ "npc" →
      onMonsterKnowledgeClick targets allActors isGM userCharacter =
        .warnNotAnNPC) ∧
    (∀ tk a, targets = [tk] → tk.actor = some a → a.type = "npc" →
      getAvailableCharacters allActors isGM = [] →
      onMonsterKnowledgeClick targets allActors isGM userCharacter =
        .warnNoPlayerCharacter) ∧
    (actors monsterId = none →
      addToBestiary actors bestiary monsterId k date =
        (bestiary, .errorMonsterNotFound)) := by
  refine ⟨?_, ?_, ?_, ?_, ?_, ?_⟩
  · intro h; subst h; rfl
  · intro t1 t2 rest h; subst h; rfl
  · intro tk h ha; subst h
    rw [onMonsterKnowledgeClick, ha]
  · intro tk a h ha hnpc; subst h
    rw [onMonsterKnowledgeClick, ha]
    dsimp only
    rw [if_pos hnpc]
  · intro tk a h ha hnpc hchars; subst h
    rw [onMonsterKnowledgeClick, ha]
    dsimp only
    rw [if_neg (by simp [hnpc]), hchars]
  · intro h
    rw [addToBestiary, h]

/-- C9 witness: each guard exercised at a concrete input. -/
theorem c9_precondition_warnings_witness :
    onMonsterKnowledgeClick [] [] true none = .warnNoTokenTargeted ∧
    onMonsterKnowledgeClick [⟨none⟩, ⟨none⟩] [] true none =
      .warnMultipleTokensTargeted ∧
    onMonsterKnowledgeClick [⟨none⟩] [] true none = .warnNoActorOnToken ∧
    onMonsterKnowledgeClick [⟨some ⟨"p1", "character", true⟩⟩] [] true none =
      .warnNotAnNPC ∧
    onMonsterKnowledgeClick [⟨some ⟨"m1", "npc", false⟩⟩] [] true none =
      .warnNoPlayerCharacter ∧
    addToBestiary (fun _ => none) (some pagesSample) "nope" knowledgeEmpty
      "2026-10-11" = (some pagesSample, .errorMonsterNotFound) :=
  ⟨(c9_precondition_warnings [] [] true none (fun _ => none) none "x"
      knowledgeEmpty "d").1 rfl,
    (c9_precondition_warnings [⟨none⟩, ⟨none⟩] [] true none (fun _ => none)
      none "x" knowledgeEmpty "d").2.1 ⟨none⟩ ⟨none⟩ [] rfl,
    (c9_precondition_warnings [⟨none⟩] [] true none (fun _ => none) none "x"
      knowledgeEmpty "d").2.2.1 ⟨none⟩ rfl rfl,
    (c9_precondition_warnings [⟨some ⟨"p1", "character", true⟩⟩] [] true none
      (fun _ => none) none "x" knowledgeEmpty "d").2.2.2.1
      ⟨some ⟨"p1", "character", true⟩⟩ ⟨"p1", "character", true⟩ rfl rfl
      (by decide),
    (c9_precondition_warnings [⟨some ⟨"m1", "npc", false⟩⟩] [] true none
      (fun _ => none) none "x" knowledgeEmpty "d").2.2.2.2.1
      ⟨some ⟨"m1", "npc", false⟩⟩ ⟨"m1", "npc", false⟩ rfl rfl rfl rfl,
    (c9_precondition_warnings [] [] true none (fun _ => none)
      (some pagesSample) "nope" knowledgeEmpty "2026-10-11").2.2.2.2.2 rfl⟩

/-- C10: committing a bundle whose tier list is empty (hasAny false) for a
monster with an existing bestiary record still replaces that record's
content wholesale: the rendered bundle is exactly the timestamp header, so
the record afterwards holds only the header and all previously recorded
knowledge is discarded. -/
theorem c10_empty_bundle_replaces (actors : String → Option String)
    (monsterId name date : String) (pages : List Page) (ep : Page)
    (k : Knowledge) (hname : actors monsterId = some name)
    (htiers : k.tiers = []) (hhas : k.hasAny = false)
    (hfind : pages.find? (fun p => p.name == name) = some ep) :
    buildBestiaryContent k name date = lastUpdatedHeader date ∧
      addToBestiary actors (some pages) monsterId k date =
        (some (updateFirstPage pages name (lastUpdatedHeader date)),
          .pageUpdated) := by
  have hcontent : buildBestiaryContent k name date = lastUpdatedHeader date := by
    rw [buildBestiaryContent, htiers]
    show lastUpdatedHeader date ++ "" = lastUpdatedHeader date
    exact String.append_empty _
  refine ⟨hcontent, ?_⟩
  rw [addToBestiary, hname]
  dsimp only
  rw [hfind, hcontent]
  rfl

/-- C10 witness: the empty bundle committed against the prior Goblin record
leaves the bestiary with the Goblin page holding only the timestamp
header. -/
theorem c10_empty_bundle_replaces_witness :
    buildBestiaryContent knowledgeEmpty "Goblin" "2026-10-11" =
      lastUpdatedHeader "2026-10-11" ∧
      addToBestiary actorsSample (some pagesSample) "m1" knowledgeEmpty
          "2026-10-11" =
        (some (updateFirstPage pagesSample "Goblin"
          (lastUpdatedHeader "2026-10-11")), .pageUpdated) :=
  c10_empty_bundle_replaces actorsSample "m1" "Goblin" "2026-10-11"
    pagesSample ⟨"Goblin", "old recorded knowledge"⟩ knowledgeEmpty
    rfl rfl rfl rfl

end Momos
